import Mathlib

/-!
Verification of the AI conversation dispatcher (webhook intake, durable job
queue, worker retry logic, circuit breaker, knowledge-base ranking).

The definitions below are a shallow embedding of the Go source:
pure helpers become Lean functions, the database becomes an explicit state
record, and fallible external effects (provider lookups, DB errors, LLM
calls) are injected through explicit environment records.  Time is modelled
in whole seconds as `Int`.
-/

namespace Clivy

/-- Infix test on character lists: pat occurs somewhere inside s. -/
def containsList (pat : List Char) : List Char → Bool
  | [] => pat.isPrefixOf []
  | x :: xs => pat.isPrefixOf (x :: xs) || containsList pat xs

/-- Substring test mirroring Go strings.Contains (byte/char level; all
patterns used by the source are ASCII). -/
def containsSub (s pat : String) : Bool :=
  containsList pat.toList s.toList

/-- ASCII lowercase, character by character (mirrors Go strings.ToLower on
the ASCII phrases the source matches against). -/
def strToLower (s : String) : String :=
  String.mk (s.toList.map Char.toLower)

/-- Whitespace test for the trim helper (mirrors the ASCII part of Go
unicode.IsSpace). -/
def isSpaceChar (c : Char) : Bool :=
  c = ' ' || c = '\t' || c = '\n' || c = '\r'

/-- Trim of leading and trailing whitespace (mirrors Go strings.TrimSpace). -/
def strTrim (s : String) : String :=
  String.mk (((s.toList.dropWhile isSpaceChar).reverse.dropWhile isSpaceChar).reverse)

/-! ## Intake: cleanJID (handlers, webhook intake)

Mirrors the Go function:
strings.Split on every colon, take the first part as the phone part and the
last part as the domain part, and if the domain part has an at sign, return
phonePart concatenated with the domain part from its first at sign. -/

/-- Split a character list on every occurrence of a separator character,
mirroring Go strings.Split with a one-character separator. -/
def splitOnChar (c : Char) : List Char → List (List Char)
  | [] => [[]]
  | x :: xs =>
    let r := splitOnChar c xs
    if x = c then [] :: r
    else
      match r with
      | [] => [[x]]
      | h :: t => (x :: h) :: t

/-- Core of cleanJID, working on character lists. -/
def cleanJIDList (jid : List Char) : List Char :=
  if jid.contains ':' then
    let parts := splitOnChar ':' jid
    if 2 ≤ parts.length then
      let phonePart := parts.headD []
      let domainPart := parts.getLastD []
      if domainPart.contains '@' then
        phonePart ++ domainPart.dropWhile (fun c => c ≠ '@')
      else jid
    else jid
  else jid

/-- Device-suffix normalizer for WhatsApp JIDs (handlers.cleanJID). -/
def cleanJID (jid : String) : String :=
  String.mk (cleanJIDList jid.toList)

theorem splitOnChar_ne_nil (c : Char) (l : List Char) : splitOnChar c l ≠ [] := by
  induction l with
  | nil => simp [splitOnChar]
  | cons x xs ih =>
    simp only [splitOnChar]
    split
    · simp
    · cases h : splitOnChar c xs with
      | nil => exact absurd h ih
      | cons a b => simp [h]

theorem splitOnChar_not_mem (c : Char) (l : List Char) (h : c ∉ l) :
    splitOnChar c l = [l] := by
  induction l with
  | nil => rfl
  | cons x xs ih =>
    have hx : x ≠ c := fun hxc => h (hxc ▸ List.mem_cons_self x xs)
    have hxs : c ∉ xs := fun hm => h (List.mem_cons_of_mem x hm)
    simp only [splitOnChar, if_neg hx, ih hxs]

theorem splitOnChar_append (c : Char) (l1 l2 : List Char) (h : c ∉ l1) :
    splitOnChar c (l1 ++ c :: l2) = l1 :: splitOnChar c l2 := by
  induction l1 with
  | nil => simp [splitOnChar]
  | cons x xs ih =>
    have hx : x ≠ c := fun hxc => h (hxc ▸ List.mem_cons_self x xs)
    have hxs : c ∉ xs := fun hm => h (List.mem_cons_of_mem x hm)
    simp only [List.cons_append, splitOnChar, if_neg hx]
    rw [show (xs.append (c :: l2)) = xs ++ c :: l2 from rfl, ih hxs]

theorem dropWhile_to_at (nn domain : List Char) (h : '@' ∉ nn) :
    (nn ++ '@' :: domain).dropWhile (fun c => c ≠ '@') = '@' :: domain := by
  induction nn with
  | nil => simp [List.dropWhile]
  | cons x xs ih =>
    have hx : x ≠ '@' := fun hxc => h (hxc ▸ List.mem_cons_self x xs)
    have hxs : '@' ∉ xs := fun hm => h (List.mem_cons_of_mem x hm)
    simp only [List.cons_append, List.dropWhile]
    simp only [hx, decide_not, decide_eq_true_eq]
    simp [hx]
    simpa using ih hxs

/-- C9 theorem, part for JIDs of the shape local:NN@domain.  The local part,
the device suffix and the domain carry the side conditions that make the
shape unambiguous (no stray separator characters). -/
theorem cleanJIDList_strips_suffix (loc nn domain : List Char)
    (h1 : ':' ∉ loc) (h2 : ':' ∉ nn) (h3 : '@' ∉ nn) (h4 : ':' ∉ domain) :
    cleanJIDList (loc ++ ':' :: (nn ++ '@' :: domain)) = loc ++ '@' :: domain := by
  have hsplit : splitOnChar ':' (loc ++ ':' :: (nn ++ '@' :: domain))
      = loc :: splitOnChar ':' (nn ++ '@' :: domain) :=
    splitOnChar_append ':' loc (nn ++ '@' :: domain) h1
  have hnomem : ':' ∉ nn ++ '@' :: domain := by
    intro hm
    rcases List.mem_append.mp hm with hm1 | hm2
    · exact h2 hm1
    · rcases List.mem_cons.mp hm2 with hm3 | hm4
      · exact absurd hm3 (by decide)
      · exact h4 hm4
  have hsplit2 : splitOnChar ':' (nn ++ '@' :: domain) = [nn ++ '@' :: domain] :=
    splitOnChar_not_mem ':' _ hnomem
  have hcontains : (loc ++ ':' :: (nn ++ '@' :: domain)).contains ':' = true := by
    simp [List.contains, List.elem_eq_mem]
  have hat : (nn ++ '@' :: domain).contains '@' = true := by
    simp [List.contains, List.elem_eq_mem]
  rw [cleanJIDList, if_pos hcontains, hsplit, hsplit2]
  simp only [List.length_cons, List.length_singleton]
  rw [if_pos (by omega)]
  simp only [List.headD_cons]
  have hlast : ((loc :: [nn ++ '@' :: domain]).getLastD []) = nn ++ '@' :: domain := by
    simp [List.getLastD]
  rw [hlast, if_pos hat, dropWhile_to_at nn domain h3]

/-- C9 theorem, part for JIDs without a colon: returned unchanged. -/
theorem cleanJIDList_no_colon (jid : List Char) (h : ':' ∉ jid) :
    cleanJIDList jid = jid := by
  have hc : jid.contains ':' = false := by
    simp [List.contains, List.elem_eq_mem, h]
  unfold cleanJIDList
  rw [hc]
  simp

/-- C9: the intake normalizer maps local:NN@domain to local@domain, and
leaves any JID without a colon unchanged. -/
theorem cleanJID_spec (loc nn domain : List Char)
    (h1 : ':' ∉ loc) (h2 : ':' ∉ nn) (h3 : '@' ∉ nn) (h4 : ':' ∉ domain) :
    cleanJID (String.mk (loc ++ ':' :: (nn ++ '@' :: domain)))
        = String.mk (loc ++ '@' :: domain)
    ∧ ∀ jid : String, ':' ∉ jid.toList → cleanJID jid = jid := by
  constructor
  · show String.mk (cleanJIDList (loc ++ ':' :: (nn ++ '@' :: domain))) = _
    rw [cleanJIDList_strips_suffix loc nn domain h1 h2 h3 h4]
  · intro jid hj
    show String.mk (cleanJIDList jid.toList) = jid
    rw [cleanJIDList_no_colon jid.toList hj]
    rfl

/-- C9 witness: the documented example JID with device suffix 24. -/
theorem cleanJID_spec_witness :
    cleanJID (String.mk ("6281233784490".toList ++ ':' :: ("24".toList ++ '@' :: "s.whatsapp.net".toList)))
      = String.mk ("6281233784490".toList ++ '@' :: "s.whatsapp.net".toList)
    ∧ cleanJID "no-colon@s.whatsapp.net" = "no-colon@s.whatsapp.net" := by
  have h := cleanJID_spec ("6281233784490".toList) ("24".toList) ("s.whatsapp.net".toList)
    (by decide) (by decide) (by decide) (by decide)
  exact ⟨h.1, h.2 "no-colon@s.whatsapp.net" (by decide)⟩

/-! ## Data model: AIJob rows (models/transactional_ai.go) -/

/-- Mirror of the AIJob GORM model.  Timestamps are whole seconds. -/
structure AIJob where
  id : Nat
  status : String
  priority : Int
  sessionTok : String
  messageId : String
  userId : String
  inputJSON : String
  outputJSON : String
  errorMsg : String
  attempts : Nat
  nextRunAt : Option Int
  createdAt : Int
  updatedAt : Int
deriving Repr, DecidableEq

/-! ## Model-provider errors (services/openrouter_errors.go) -/

/-- Go error values reaching the worker: either an unwrapped openai.APIError
or a plain error carrying only a message string. -/
inductive GoError where
  | apiError (httpStatusCode : Nat) (message : String)
  | generic (message : String)
deriving Repr, DecidableEq

/-- Mirror of the OpenRouterError struct. -/
structure OpenRouterError where
  statusCode : Nat
  code : Nat
  message : String
deriving Repr, DecidableEq

/-- Temporary errors that can be retried (408, 429, 502, 503). -/
def OpenRouterError.IsRetryable (e : OpenRouterError) : Bool :=
  e.statusCode == 408 || e.statusCode == 429 || e.statusCode == 502 || e.statusCode == 503

/-- Authentication errors (401). -/
def OpenRouterError.IsAuthError (e : OpenRouterError) : Bool :=
  e.statusCode == 401

/-- Insufficient-credit errors (402). -/
def OpenRouterError.IsPaymentError (e : OpenRouterError) : Bool :=
  e.statusCode == 402

/-- Moderation errors (403). -/
def OpenRouterError.IsModerationError (e : OpenRouterError) : Bool :=
  e.statusCode == 403

/-- Context-too-long detection: status 400 and the lowercase message contains
"context" together with "length", "exceeded" or "too long". -/
def OpenRouterError.IsContextLengthError (e : OpenRouterError) : Bool :=
  if e.statusCode != 400 then false
  else
    let msgLower := strToLower e.message
    containsSub msgLower "context" &&
      (containsSub msgLower "length" || containsSub msgLower "exceeded" ||
        containsSub msgLower "too long")

/-- Mirror of ParseSDKError: unwrap an APIError, otherwise run the phrase
heuristics over the lowercased message, falling back to an unknown 500. -/
def ParseSDKError : GoError → OpenRouterError
  | GoError.apiError code msg => ⟨code, code, msg⟩
  | GoError.generic msg =>
    let ml := strToLower msg
    if containsSub ml "timeout" || containsSub ml "deadline exceeded" then
      ⟨408, 408, "Request timeout"⟩
    else if containsSub ml "context" && (containsSub ml "length" || containsSub ml "too long") then
      ⟨400, 400, msg⟩
    else if containsSub ml "unauthorized" || containsSub ml "invalid api key" then
      ⟨401, 401, "Authentication failed"⟩
    else if containsSub ml "insufficient" || containsSub ml "quota" || containsSub ml "billing" then
      ⟨402, 402, "Insufficient credits or quota exceeded"⟩
    else if containsSub ml "rate limit" || containsSub ml "too many requests" then
      ⟨429, 429, "Rate limit exceeded"⟩
    else if containsSub ml "bad gateway" then
      ⟨502, 502, "Bad gateway"⟩
    else if containsSub ml "service unavailable" || containsSub ml "temporarily unavailable" then
      ⟨503, 503, "Service temporarily unavailable"⟩
    else
      ⟨500, 500, msg⟩

/-! ## Circuit breaker (services/circuit_breaker.go) -/

/-- Immutable breaker configuration. -/
structure CircuitBreaker where
  name : String
  maxFailures : Nat
  cooldown : Int
deriving Repr, DecidableEq

/-- Mutable breaker state (failures, lastFailure, isOpen). -/
structure CBState where
  failures : Nat
  lastFailure : Int
  isOpen : Bool
deriving Repr, DecidableEq

/-- Initial breaker state as produced by NewCircuitBreaker. -/
def NewCircuitBreakerState : CBState := ⟨0, 0, false⟩

/-- The worker's shared breaker: NewCircuitBreaker("openrouter", 5, 60 s). -/
def openRouterCB : CircuitBreaker := ⟨"openrouter", 5, 60⟩

/-- Message of the fast-fail error returned while the breaker is open; the
Go code interpolates the formatted cooldown-expiry time, modelled by the
untilStr argument. -/
def CircuitBreaker.openErrMsg (cb : CircuitBreaker) (untilStr : String) : String :=
  "circuit breaker " ++ cb.name ++ " is open (cooldown until " ++ untilStr ++ ")"

/-- Outcome of one Call invocation. -/
inductive CBOutcome where
  | breakerOpen (e : GoError)
  | fnError (e : GoError)
  | ok
deriving Repr, DecidableEq

/-- Inner part of Call after the open-state check: invoke f (whose result is
injected as fErr), update failure bookkeeping. -/
def CircuitBreaker.invoke (cb : CircuitBreaker) (st : CBState) (now : Int)
    (fErr : Option GoError) : CBOutcome × CBState :=
  match fErr with
  | some e =>
    let f1 := st.failures + 1
    (CBOutcome.fnError e,
      { failures := f1, lastFailure := now,
        isOpen := if cb.maxFailures ≤ f1 then true else st.isOpen })
  | none => (CBOutcome.ok, { st with failures := 0 })

/-- Mirror of CircuitBreaker.Call: short-circuit while open within the
cooldown, otherwise half-open (resetting the failure count on the timed
edge) and invoke f. -/
def CircuitBreaker.call (cb : CircuitBreaker) (st : CBState) (now : Int)
    (untilStr : String) (fErr : Option GoError) : CBOutcome × CBState :=
  if st.isOpen then
    if cb.cooldown < now - st.lastFailure then
      cb.invoke { st with isOpen := false, failures := 0 } now fErr
    else
      (CBOutcome.breakerOpen (GoError.generic (cb.openErrMsg untilStr)), st)
  else cb.invoke st now fErr

/-! ## Worker terminal updates (worker/ai_worker.go) -/

/-- Mirror of failJob: transient-fail bookkeeping with the max-3-attempts
retry rule (status pending plus next_run_at = now + 30 s while attempts < 3,
else status failed). -/
def failJob (job : AIJob) (errMsg : String) (now : Int) : AIJob :=
  if job.attempts < 3 then
    { job with errorMsg := errMsg, updatedAt := now,
               status := "pending", nextRunAt := some (now + 30) }
  else
    { job with errorMsg := errMsg, updatedAt := now, status := "failed" }

/-- Mirror of permanentFailJob: mark failed with no retry. -/
def permanentFailJob (job : AIJob) (errMsg : String) (now : Int) : AIJob :=
  { job with status := "failed", errorMsg := errMsg, updatedAt := now }

/-- Job-row update on the success path (status done, output recorded); the
serialized output JSON is abstracted to the response payload string. -/
def completeJob (job : AIJob) (response : String) (now : Int) : AIJob :=
  { job with status := "done", outputJSON := response, updatedAt := now }

/-- Standard error classification at the tail of handleLLMError:
auth/payment/moderation and non-retryable errors fail permanently, the rest
go through failJob. -/
def classifyStandard (job : AIJob) (orErr : OpenRouterError) (now : Int) : AIJob :=
  if orErr.IsAuthError || orErr.IsPaymentError || orErr.IsModerationError then
    permanentFailJob job (toString orErr.code ++ ": " ++ orErr.message) now
  else if !orErr.IsRetryable then
    permanentFailJob job ("Non-retryable error: " ++ toString orErr.code ++ " - " ++ orErr.message) now
  else
    failJob job ("LLM call failed (" ++ toString orErr.code ++ "): " ++ orErr.message) now

/-- Environment for the narrowed-context retry inside handleLLMError: per
round, whether BuildContextWithLimit(5) succeeds, the result of the second
model call (none = success), whether the chat-message fetch and the reply
send succeed, and the produced response text. -/
structure RetryEnv where
  rebuildOk : Nat → Bool
  retryCall : Nat → Option GoError
  retryFetchOk : Nat → Bool
  retrySendOk : Nat → Bool
  retryResponse : Nat → String

/-- Mirror of handleLLMError.  A context-length error with a window larger
than 5 triggers one rebuild with max_messages = 5 and a re-run; a failure of
the re-run recurses with currentMaxMessages = 5, where the guard is false
and classification falls through to classifyStandard. -/
def handleLLMError (env : RetryEnv) (round : Nat) (job : AIJob) (e : GoError)
    (currentMaxMessages : Nat) (now : Int) : AIJob :=
  let orErr := ParseSDKError e
  if h : orErr.IsContextLengthError = true ∧ 5 < currentMaxMessages then
    if env.rebuildOk round then
      match env.retryCall round with
      | some e2 => handleLLMError env (round + 1) job e2 5 now
      | none =>
        if env.retryFetchOk round then
          if env.retrySendOk round then completeJob job (env.retryResponse round) now
          else failJob job "Failed to send WA message" now
        else failJob job "Failed to fetch chat message" now
    else permanentFailJob job "Context build failed even with 5 messages" now
  else classifyStandard job orErr now
termination_by currentMaxMessages
decreasing_by exact h.2

/-- Environment for one processJob run: whether the inbound chat message is
found, whether the initial context build succeeds, the first model-call
result, whether the reply send succeeds, the response text, and the
narrowed-retry environment. -/
structure WorkerEnv where
  chatMsgFound : Bool
  ctxBuildOk : Bool
  llmErr : Option GoError
  sendOk : Bool
  response : String
  retry : RetryEnv

/-- Mirror of processJob: fetch the inbound turn, build context with
max_messages = 10, call the model through the breaker, and either complete
the job or hand the error to handleLLMError. -/
def processJob (env : WorkerEnv) (job : AIJob) (now : Int) : AIJob :=
  if !env.chatMsgFound then failJob job "Failed to fetch chat message" now
  else if !env.ctxBuildOk then failJob job "Context build failed" now
  else
    match env.llmErr with
    | some e => handleLLMError env.retry 0 job e 10 now
    | none =>
      if !env.sendOk then failJob job "Failed to send WA message" now
      else completeJob job env.response now

/-! ## Queue claim (worker/ai_worker.go, processJobs) -/

/-- Eligibility predicate of the claim query: status pending and
next_run_at NULL or at most now. -/
def eligible (now : Int) (j : AIJob) : Bool :=
  j.status == "pending" &&
    (match j.nextRunAt with
     | none => true
     | some t => decide (t ≤ now))

/-- Strict ordering of the claim query: ORDER BY priority ASC, id ASC. -/
def jobLess (a b : AIJob) : Bool :=
  decide (a.priority < b.priority) || (a.priority == b.priority && decide (a.id < b.id))

/-- Reflexive (priority, id) order used to state minimality. -/
def keyLE (a b : AIJob) : Prop :=
  a.priority < b.priority ∨ (a.priority = b.priority ∧ a.id ≤ b.id)

theorem keyLE_refl (a : AIJob) : keyLE a a := Or.inr ⟨rfl, le_refl _⟩

theorem keyLE_trans {a b c : AIJob} (h1 : keyLE a b) (h2 : keyLE b c) : keyLE a c := by
  rcases h1 with h1 | ⟨h1p, h1i⟩ <;> rcases h2 with h2 | ⟨h2p, h2i⟩
  · exact Or.inl (lt_trans h1 h2)
  · exact Or.inl (h2p ▸ h1)
  · exact Or.inl (h1p ▸ h2)
  · exact Or.inr ⟨h1p.trans h2p, le_trans h1i h2i⟩

theorem jobLess_true {a b : AIJob} (h : jobLess a b = true) : keyLE a b := by
  unfold jobLess at h
  simp only [Bool.or_eq_true, Bool.and_eq_true, decide_eq_true_eq, beq_iff_eq] at h
  rcases h with h | ⟨hp, hi⟩
  · exact Or.inl h
  · exact Or.inr ⟨hp, le_of_lt hi⟩

theorem jobLess_false {a b : AIJob} (h : jobLess a b = false) : keyLE b a := by
  unfold jobLess at h
  simp only [Bool.or_eq_false_iff, Bool.and_eq_false_iff, decide_eq_false_iff_not,
    not_lt, beq_eq_false_iff_ne, ne_eq] at h
  obtain ⟨h1, h2⟩ := h
  rcases lt_or_eq_of_le h1 with hlt | heq
  · exact Or.inl hlt
  · rcases h2 with h2 | h2
    · exact absurd heq.symm h2
    · exact Or.inr ⟨heq, h2⟩

/-- Fold that keeps the least job under (priority ASC, id ASC). -/
def selectMin (b : AIJob) : List AIJob → AIJob
  | [] => b
  | j :: rest => if jobLess j b then selectMin j rest else selectMin b rest

/-- Result of the claim SELECT: the minimal eligible job, if any. -/
def selectJob (now : Int) (jobs : List AIJob) : Option AIJob :=
  match jobs.filter (eligible now) with
  | [] => none
  | j :: rest => some (selectMin j rest)

/-- Row update of the claim transaction: status processing, attempts
incremented by exactly one, updated_at set. -/
def claimUpdate (now : Int) (j : AIJob) : AIJob :=
  { j with status := "processing", attempts := j.attempts + 1, updatedAt := now }

/-- Mirror of one iteration of processJobs: run the claim query, bail out if
no row was scanned (the Scan leaves job.ID = 0), otherwise apply the claim
update inside the same transaction and return the committed state together
with the claimed job as handed to processJob. -/
def processJobsClaim (now : Int) (jobs : List AIJob) : Option (AIJob × List AIJob) :=
  match selectJob now jobs with
  | none => none
  | some j =>
    if j.id == 0 then none
    else
      some (claimUpdate now j,
        jobs.map (fun x => if x.id == j.id then claimUpdate now x else x))

theorem selectMin_mem (b : AIJob) (l : List AIJob) : selectMin b l ∈ b :: l := by
  induction l generalizing b with
  | nil => simp [selectMin]
  | cons j rest ih =>
    simp only [selectMin]
    by_cases hlt : jobLess j b = true
    · rw [if_pos hlt]
      exact List.mem_cons_of_mem b (ih j)
    · rw [if_neg hlt]
      rcases List.mem_cons.mp (ih b) with h | h
      · exact List.mem_cons.mpr (Or.inl h)
      · exact List.mem_cons.mpr (Or.inr (List.mem_cons.mpr (Or.inr h)))

theorem selectMin_min (b : AIJob) (l : List AIJob) :
    ∀ x ∈ b :: l, keyLE (selectMin b l) x := by
  induction l generalizing b with
  | nil =>
    intro x hx
    simp only [selectMin]
    rcases List.mem_cons.mp hx with h | h
    · subst h; exact keyLE_refl _
    · exact absurd h (List.not_mem_nil x)
  | cons j rest ih =>
    intro x hx
    simp only [selectMin]
    by_cases hlt : jobLess j b = true
    · rw [if_pos hlt]
      rcases List.mem_cons.mp hx with hxb | hxrest
      · subst hxb
        exact keyLE_trans (ih j j (List.mem_cons_self j rest)) (jobLess_true hlt)
      · exact ih j x hxrest
    · rw [if_neg hlt]
      have hf : jobLess j b = false := Bool.eq_false_iff.mpr hlt
      rcases List.mem_cons.mp hx with hxb | hxrest
      · subst hxb
        exact ih x x (List.mem_cons_self x rest)
      · rcases List.mem_cons.mp hxrest with hxj | hxr
        · subst hxj
          exact keyLE_trans (ih b b (List.mem_cons_self b rest)) (jobLess_false hf)
        · exact ih b x (List.mem_cons_of_mem b hxr)

theorem selectJob_none_iff (now : Int) (jobs : List AIJob) :
    selectJob now jobs = none ↔ ∀ j ∈ jobs, eligible now j = false := by
  unfold selectJob
  constructor
  · intro h j hj
    cases he : eligible now j with
    | false => rfl
    | true =>
      have hmem : j ∈ jobs.filter (eligible now) := List.mem_filter.mpr ⟨hj, he⟩
      cases hf : jobs.filter (eligible now) with
      | nil => rw [hf] at hmem; exact absurd hmem (List.not_mem_nil j)
      | cons a b => rw [hf] at h; exact absurd h (by simp)
  · intro h
    have hf : jobs.filter (eligible now) = [] := by
      apply List.filter_eq_nil_iff.mpr
      intro j hj
      simp [h j hj]
    rw [hf]

theorem selectJob_some (now : Int) (jobs : List AIJob) (j : AIJob)
    (h : selectJob now jobs = some j) :
    j ∈ jobs ∧ eligible now j = true ∧
      ∀ k ∈ jobs, eligible now k = true → keyLE j k := by
  unfold selectJob at h
  cases hf : jobs.filter (eligible now) with
  | nil => rw [hf] at h; exact absurd h (by simp)
  | cons a rest =>
    rw [hf] at h
    have hj : j = selectMin a rest := by
      have := Option.some.inj h
      exact this.symm
    have hmem : j ∈ a :: rest := hj ▸ selectMin_mem a rest
    have hmem2 : j ∈ jobs.filter (eligible now) := hf ▸ hmem
    have hin := List.mem_filter.mp hmem2
    refine ⟨hin.1, hin.2, ?_⟩
    intro k hk he
    have hkf : k ∈ a :: rest := hf ▸ List.mem_filter.mpr ⟨hk, he⟩
    exact hj ▸ selectMin_min a rest k hkf

/-! ## Claim C1: the claim protocol -/

/-- C1: the worker's claim operation selects a job iff some job is pending
with next_run_at NULL or due; the selected job is the minimal eligible one
under (priority ASC, id ASC); and the committed state has exactly that row
updated to status processing with attempts incremented by exactly one and
updated_at set, before processing begins (the claimed job handed to
processJob is the updated row of the committed state). -/
theorem claim_protocol (now : Int) (jobs : List AIJob)
    (hid : ∀ j ∈ jobs, j.id ≠ 0) :
    ((processJobsClaim now jobs).isSome ↔ ∃ j ∈ jobs, eligible now j = true)
    ∧ (∀ j st, processJobsClaim now jobs = some (j, st) →
        ∃ j0, j0 ∈ jobs ∧ eligible now j0 = true
          ∧ (∀ k ∈ jobs, eligible now k = true → keyLE j0 k)
          ∧ j = claimUpdate now j0
          ∧ j.status = "processing" ∧ j.attempts = j0.attempts + 1 ∧ j.updatedAt = now
          ∧ st = jobs.map (fun x => if x.id == j0.id then claimUpdate now x else x)) := by
  constructor
  · constructor
    · intro hsome
      unfold processJobsClaim at hsome
      cases hsel : selectJob now jobs with
      | none => rw [hsel] at hsome; simp at hsome
      | some j =>
        obtain ⟨hj, he, _⟩ := selectJob_some now jobs j hsel
        exact ⟨j, hj, he⟩
    · rintro ⟨j, hj, he⟩
      unfold processJobsClaim
      cases hsel : selectJob now jobs with
      | none =>
        have := (selectJob_none_iff now jobs).mp hsel j hj
        rw [he] at this
        exact absurd this (by simp)
      | some j0 =>
        obtain ⟨hj0, _, _⟩ := selectJob_some now jobs j0 hsel
        have hz : j0.id ≠ 0 := hid j0 hj0
        simp [hz]
  · intro j st hsome
    unfold processJobsClaim at hsome
    cases hsel : selectJob now jobs with
    | none => rw [hsel] at hsome; simp at hsome
    | some j0 =>
      rw [hsel] at hsome
      dsimp only at hsome
      by_cases hz : (j0.id == 0) = true
      · rw [if_pos hz] at hsome; simp at hsome
      · rw [if_neg hz] at hsome
        obtain ⟨hmem, he, hmin⟩ := selectJob_some now jobs j0 hsel
        simp only [Option.some.injEq, Prod.mk.injEq] at hsome
        obtain ⟨hju, hst⟩ := hsome
        refine ⟨j0, hmem, he, hmin, hju.symm, ?_, ?_, ?_, hst.symm⟩
        · rw [← hju]; rfl
        · rw [← hju]; rfl
        · rw [← hju]; rfl

/-- Example queue for the C1 witness: job id 2 is due, job id 1 is scheduled
in the future, so the due job is claimed even though its id is larger. -/
def c1jobA : AIJob :=
  { id := 2, status := "pending", priority := 5, sessionTok := "s", messageId := "m1",
    userId := "u", inputJSON := "", outputJSON := "", errorMsg := "",
    attempts := 0, nextRunAt := none, createdAt := 0, updatedAt := 0 }

/-- Second example job: pending but not yet due at now = 0. -/
def c1jobB : AIJob :=
  { id := 1, status := "pending", priority := 5, sessionTok := "s", messageId := "m2",
    userId := "u", inputJSON := "", outputJSON := "", errorMsg := "",
    attempts := 0, nextRunAt := some 100, createdAt := 0, updatedAt := 0 }

/-- C1 witness: on the example queue the claim succeeds. -/
theorem claim_protocol_witness :
    (processJobsClaim 0 [c1jobA, c1jobB]).isSome = true :=
  (claim_protocol 0 [c1jobA, c1jobB] (by decide)).1.mpr
    ⟨c1jobA, by decide, by decide⟩

/-! ## Claim C2: failJob retry rule -/

/-- C2: on a transient failure after a claim, failJob returns the job to
pending with next_run_at = now + 30 s and error_msg recorded while
attempts < 3, otherwise promotes to status failed; consequently the status
can come out as pending only when attempts < 3. -/
theorem failJob_retry_rule (job : AIJob) (errMsg : String) (now : Int) :
    (job.attempts < 3 →
      failJob job errMsg now =
        { job with errorMsg := errMsg, updatedAt := now,
                   status := "pending", nextRunAt := some (now + 30) })
    ∧ (3 ≤ job.attempts →
      failJob job errMsg now =
        { job with errorMsg := errMsg, updatedAt := now, status := "failed" })
    ∧ ((failJob job errMsg now).status = "pending" → job.attempts < 3) := by
  refine ⟨fun h => by rw [failJob, if_pos h],
          fun h => by rw [failJob, if_neg (by omega)], ?_⟩
  intro hp
  by_contra hge
  rw [failJob, if_neg hge] at hp
  dsimp only at hp
  exact absurd hp (by decide)

/-- Example job with one recorded attempt for the C2 witness. -/
def c2jobA : AIJob :=
  { id := 7, status := "processing", priority := 5, sessionTok := "s", messageId := "m",
    userId := "u", inputJSON := "", outputJSON := "", errorMsg := "",
    attempts := 1, nextRunAt := none, createdAt := 0, updatedAt := 0 }

/-- Example job at the attempt cap for the C2 witness. -/
def c2jobB : AIJob :=
  { c2jobA with id := 8, attempts := 3 }

/-- C2 witness: one transient retry below the cap, one promotion at the cap. -/
theorem failJob_retry_rule_witness :
    failJob c2jobA "boom" 100 =
      { c2jobA with errorMsg := "boom", updatedAt := 100,
                    status := "pending", nextRunAt := some 130 }
    ∧ failJob c2jobB "boom" 100 =
      { c2jobB with errorMsg := "boom", updatedAt := 100, status := "failed" } :=
  ⟨(failJob_retry_rule c2jobA "boom" 100).1 (by decide),
   (failJob_retry_rule c2jobB "boom" 100).2.1 (by decide)⟩

/-! ## Claim C3: missing inbound turn (corrected)

The claim states a permanent fail regardless of attempts, but processJob
routes a failed chat-message fetch through failJob, which retries while
attempts < 3. -/

/-- Worker environment in which the inbound turn referenced by the job is
missing. -/
def c3env : WorkerEnv :=
  { chatMsgFound := false, ctxBuildOk := true, llmErr := none, sendOk := true,
    response := "",
    retry := ⟨fun _ => true, fun _ => none, fun _ => true, fun _ => true, fun _ => ""⟩ }

/-- Claimed job on its first attempt, for the C3 counterexample. -/
def c3job : AIJob :=
  { id := 9, status := "processing", priority := 5, sessionTok := "s", messageId := "gone",
    userId := "u", inputJSON := "", outputJSON := "", errorMsg := "",
    attempts := 1, nextRunAt := none, createdAt := 0, updatedAt := 0 }

/-- C3 counterexample: with attempts = 1 and the inbound turn missing, the
job does not end failed; it is rescheduled to pending with a 30 s delay. -/
theorem processJob_missing_turn_cex :
    c3job.attempts = 1
    ∧ (processJob c3env c3job 0).status = "pending"
    ∧ (processJob c3env c3job 0).status ≠ "failed"
    ∧ (processJob c3env c3job 0).nextRunAt = some 30 := by
  decide

/-- C3 amended: a job whose inbound turn is missing goes through the
standard failJob retry rule (pending with next_run_at = now + 30 s and
error_msg recorded while attempts < 3; failed only once attempts ≥ 3). -/
theorem processJob_missing_turn (env : WorkerEnv) (job : AIJob) (now : Int)
    (h : env.chatMsgFound = false) :
    processJob env job now = failJob job "Failed to fetch chat message" now
    ∧ (job.attempts < 3 →
        (processJob env job now).status = "pending"
        ∧ (processJob env job now).nextRunAt = some (now + 30)
        ∧ (processJob env job now).errorMsg = "Failed to fetch chat message")
    ∧ (3 ≤ job.attempts → (processJob env job now).status = "failed") := by
  have h0 : processJob env job now = failJob job "Failed to fetch chat message" now := by
    simp [processJob, h]
  refine ⟨h0, ?_, ?_⟩
  · intro hlt
    rw [h0, failJob, if_pos hlt]
    exact ⟨rfl, rfl, rfl⟩
  · intro hge
    rw [h0, failJob, if_neg (by omega)]

/-- C3 witness for the amended theorem, at the counterexample input. -/
theorem processJob_missing_turn_witness :
    (processJob c3env c3job 5).status = "pending"
    ∧ (processJob c3env c3job 5).nextRunAt = some 35 :=
  ⟨((processJob_missing_turn c3env c3job 5 rfl).2.1 (by decide)).1,
   ((processJob_missing_turn c3env c3job 5 rfl).2.1 (by decide)).2.1⟩

/-! ## Unfolding lemmas for handleLLMError -/

theorem handleLLMError_not_ctx (env : RetryEnv) (round : Nat) (job : AIJob)
    (e : GoError) (cm : Nat) (now : Int)
    (h : ¬((ParseSDKError e).IsContextLengthError = true ∧ 5 < cm)) :
    handleLLMError env round job e cm now = classifyStandard job (ParseSDKError e) now := by
  unfold handleLLMError
  rw [dif_neg h]

theorem handleLLMError_ctx (env : RetryEnv) (round : Nat) (job : AIJob)
    (e : GoError) (cm : Nat) (now : Int)
    (h : (ParseSDKError e).IsContextLengthError = true ∧ 5 < cm) :
    handleLLMError env round job e cm now =
      (if env.rebuildOk round then
        match env.retryCall round with
        | some e2 => handleLLMError env (round + 1) job e2 5 now
        | none =>
          if env.retryFetchOk round then
            if env.retrySendOk round then completeJob job (env.retryResponse round) now
            else failJob job "Failed to send WA message" now
          else failJob job "Failed to fetch chat message" now
       else permanentFailJob job "Context build failed even with 5 messages" now) := by
  conv_lhs => rw [handleLLMError]
  rw [dif_pos h]

/-! ## Claim C4: breaker-open error classification (corrected)

The breaker short-circuit error message matches none of the ParseSDKError
phrase heuristics, so it is parsed as an unknown 500 error; 500 is not
retryable and not auth/payment/moderation, hence permanentFailJob runs
instead of the transient retry the claim describes. -/

/-- Absence of every phrase the ParseSDKError fallback heuristics look for
(for the context heuristic the word "context" alone suffices to rule the
branch out). -/
abbrev noHeuristicPhrase (msg : String) : Prop :=
  containsSub (strToLower msg) "timeout" = false
  ∧ containsSub (strToLower msg) "deadline exceeded" = false
  ∧ containsSub (strToLower msg) "context" = false
  ∧ containsSub (strToLower msg) "unauthorized" = false
  ∧ containsSub (strToLower msg) "invalid api key" = false
  ∧ containsSub (strToLower msg) "insufficient" = false
  ∧ containsSub (strToLower msg) "quota" = false
  ∧ containsSub (strToLower msg) "billing" = false
  ∧ containsSub (strToLower msg) "rate limit" = false
  ∧ containsSub (strToLower msg) "too many requests" = false
  ∧ containsSub (strToLower msg) "bad gateway" = false
  ∧ containsSub (strToLower msg) "service unavailable" = false
  ∧ containsSub (strToLower msg) "temporarily unavailable" = false

theorem ParseSDKError_unknown (msg : String) (h : noHeuristicPhrase msg) :
    ParseSDKError (GoError.generic msg) = ⟨500, 500, msg⟩ := by
  obtain ⟨h1, h2, h3, h4, h5, h6, h7, h8, h9, h10, h11, h12, h13⟩ := h
  unfold ParseSDKError
  simp [h1, h2, h3, h4, h5, h6, h7, h8, h9, h10, h11, h12, h13]

/-- Breaker-open error message at a representative formatted cooldown time. -/
def c4msg : String := openRouterCB.openErrMsg "2026-01-01 00:00:00 +0000 UTC"

/-- Environment for the C4 counterexample (its retry fields are never
consulted on this path). -/
def c4env : RetryEnv :=
  ⟨fun _ => true, fun _ => none, fun _ => true, fun _ => true, fun _ => ""⟩

/-- First-attempt job for the C4 counterexample. -/
def c4job : AIJob :=
  { id := 11, status := "processing", priority := 5, sessionTok := "s", messageId := "m",
    userId := "u", inputJSON := "", outputJSON := "", errorMsg := "",
    attempts := 1, nextRunAt := none, createdAt := 0, updatedAt := 0 }

/-- C4 counterexample: a first-attempt job whose model call was
short-circuited by the open breaker ends failed with no retry scheduled,
although attempts = 1 < 3, contradicting the claimed transient handling. -/
theorem breakerOpen_transient_cex :
    c4job.attempts = 1
    ∧ (handleLLMError c4env 0 c4job (GoError.generic c4msg) 10 0).status = "failed"
    ∧ (handleLLMError c4env 0 c4job (GoError.generic c4msg) 10 0).status ≠ "pending"
    ∧ (handleLLMError c4env 0 c4job (GoError.generic c4msg) 10 0).nextRunAt = none := by
  have h := handleLLMError_not_ctx c4env 0 c4job (GoError.generic c4msg) 10 0 (by decide)
  rw [h]
  refine ⟨rfl, ?_, ?_, ?_⟩ <;> decide

/-- C4 amended: the breaker-open short-circuit error is parsed by the
fallback heuristics as an unknown 500 error, which is non-retryable, so the
worker permanently fails the job (status failed, error_msg recorded)
regardless of the attempts count; no retry is scheduled. -/
theorem breakerOpen_error_permanent (untilStr : String) (env : RetryEnv) (round : Nat)
    (job : AIJob) (now : Int)
    (h : noHeuristicPhrase (openRouterCB.openErrMsg untilStr)) :
    handleLLMError env round job (GoError.generic (openRouterCB.openErrMsg untilStr)) 10 now
      = permanentFailJob job
          ("Non-retryable error: " ++ toString (500 : Nat) ++ " - " ++ openRouterCB.openErrMsg untilStr)
          now := by
  have hp := ParseSDKError_unknown _ h
  have hcl : (ParseSDKError (GoError.generic (openRouterCB.openErrMsg untilStr))).IsContextLengthError = false := by
    rw [hp]; rfl
  rw [handleLLMError_not_ctx _ _ _ _ _ _ (by simp [hcl]), hp]
  rfl

/-- C4 witness for the amended theorem, at the counterexample timestamp. -/
theorem breakerOpen_error_permanent_witness :
    handleLLMError c4env 0 c4job (GoError.generic c4msg) 10 0
      = permanentFailJob c4job
          ("Non-retryable error: " ++ toString (500 : Nat) ++ " - " ++ c4msg) 0 :=
  breakerOpen_error_permanent "2026-01-01 00:00:00 +0000 UTC" c4env 0 c4job 0 (by decide)

/-! ## Claim C5: circuit breaker Call contract -/

/-- C5: at the worker's parameters (max_failures = 5, cooldown = 60 s):
while open within the cooldown, Call short-circuits without invoking f and
leaves the state unchanged; while open past the cooldown it half-opens,
resetting the failure count on the timed edge, and invokes f; an error from
f increments the count, stamps last_failure, opens once the count reaches 5
and propagates the error; a success resets the count and leaves the breaker
closed. -/
theorem circuitBreaker_call_contract (st : CBState) (now : Int) (untilStr : String)
    (fErr : Option GoError) :
    (st.isOpen = true → now - st.lastFailure ≤ 60 →
      openRouterCB.call st now untilStr fErr
        = (CBOutcome.breakerOpen (GoError.generic (openRouterCB.openErrMsg untilStr)), st))
    ∧ (∀ e, st.isOpen = true → 60 < now - st.lastFailure → fErr = some e →
      openRouterCB.call st now untilStr fErr
        = (CBOutcome.fnError e, { failures := 1, lastFailure := now, isOpen := false }))
    ∧ (∀ e, st.isOpen = false → fErr = some e →
      openRouterCB.call st now untilStr fErr
        = (CBOutcome.fnError e,
           { failures := st.failures + 1, lastFailure := now,
             isOpen := if 5 ≤ st.failures + 1 then true else false }))
    ∧ (fErr = none → (st.isOpen = false ∨ 60 < now - st.lastFailure) →
      (openRouterCB.call st now untilStr fErr).1 = CBOutcome.ok
      ∧ (openRouterCB.call st now untilStr fErr).2.isOpen = false
      ∧ (openRouterCB.call st now untilStr fErr).2.failures = 0) := by
  have hcool : openRouterCB.cooldown = 60 := rfl
  have hmax : openRouterCB.maxFailures = 5 := rfl
  refine ⟨?_, ?_, ?_, ?_⟩
  · intro ho hle
    unfold CircuitBreaker.call
    rw [ho, if_pos rfl, hcool, if_neg (by omega)]
  · intro e ho hgt hf
    unfold CircuitBreaker.call CircuitBreaker.invoke
    rw [ho, hf, if_pos rfl, hcool, if_pos (by omega)]
    dsimp only
    rw [hmax, if_neg (by omega)]
  · intro e ho hf
    unfold CircuitBreaker.call CircuitBreaker.invoke
    rw [ho, hf, if_neg (by simp)]
    dsimp only
    rw [hmax]
  · intro hf hinv
    unfold CircuitBreaker.call CircuitBreaker.invoke
    rw [hf]
    rcases hinv with ho | hgt
    · rw [ho, if_neg (by simp)]
      exact ⟨rfl, rfl, rfl⟩
    · by_cases ho : st.isOpen = true
      · rw [ho, if_pos rfl, hcool, if_pos (by omega)]
        exact ⟨rfl, rfl, rfl⟩
      · rw [Bool.not_eq_true] at ho
        rw [ho, if_neg (by simp)]
        exact ⟨rfl, rfl, rfl⟩

/-- C5 witness: a closed breaker at four failures opens on the fifth error,
and an open breaker inside the cooldown short-circuits. -/
theorem circuitBreaker_call_contract_witness :
    openRouterCB.call ⟨4, 0, false⟩ 10 "t" (some (GoError.generic "boom"))
      = (CBOutcome.fnError (GoError.generic "boom"), ⟨5, 10, true⟩)
    ∧ openRouterCB.call ⟨5, 10, true⟩ 40 "t" (some (GoError.generic "boom"))
      = (CBOutcome.breakerOpen (GoError.generic (openRouterCB.openErrMsg "t")), ⟨5, 10, true⟩) := by
  constructor
  · have h := (circuitBreaker_call_contract ⟨4, 0, false⟩ 10 "t"
      (some (GoError.generic "boom"))).2.2.1 (GoError.generic "boom") rfl rfl
    rw [h]
    rfl
  · exact (circuitBreaker_call_contract ⟨5, 10, true⟩ 40 "t"
      (some (GoError.generic "boom"))).1 rfl (by decide)

/-! ## Claim C6: one narrowed-context retry -/

/-- C6: on a context-length error with the 10-message window, the worker
rebuilds with max_messages = 5 and re-runs the model call and completion
steps exactly once; a failure of that second call — of any kind, including
another context-length error — is handled by the standard classification,
because at window 5 the narrowing guard is false and no further rebuild
happens. -/
theorem contextLength_single_retry (env : RetryEnv) (round : Nat) (job : AIJob)
    (e : GoError) (now : Int)
    (hctx : (ParseSDKError e).IsContextLengthError = true) :
    handleLLMError env round job e 10 now =
      (if env.rebuildOk round then
        match env.retryCall round with
        | some e2 => classifyStandard job (ParseSDKError e2) now
        | none =>
          if env.retryFetchOk round then
            if env.retrySendOk round then completeJob job (env.retryResponse round) now
            else failJob job "Failed to send WA message" now
          else failJob job "Failed to fetch chat message" now
       else permanentFailJob job "Context build failed even with 5 messages" now)
    ∧ (∀ e2 r, handleLLMError env r job e2 5 now
        = classifyStandard job (ParseSDKError e2) now) := by
  have h5 : ∀ e2 r, handleLLMError env r job e2 5 now
      = classifyStandard job (ParseSDKError e2) now := by
    intro e2 r
    exact handleLLMError_not_ctx env r job e2 5 now (fun hc => absurd hc.2 (by decide))
  refine ⟨?_, h5⟩
  rw [handleLLMError_ctx env round job e 10 now ⟨hctx, by decide⟩]
  by_cases hb : env.rebuildOk round = true
  · rw [if_pos hb, if_pos hb]
    cases hr : env.retryCall round with
    | none => rfl
    | some e2 => exact h5 e2 (round + 1)
  · rw [Bool.not_eq_true] at hb
    rw [hb]
    simp

/-- Retry environment for the C6 witness: the narrowed rebuild, the second
model call and the completion steps all succeed. -/
def c6env : RetryEnv :=
  ⟨fun _ => true, fun _ => none, fun _ => true, fun _ => true, fun _ => "ok"⟩

/-- Job for the C6 witness. -/
def c6job : AIJob :=
  { id := 12, status := "processing", priority := 5, sessionTok := "s", messageId := "m",
    userId := "u", inputJSON := "", outputJSON := "", errorMsg := "",
    attempts := 1, nextRunAt := none, createdAt := 0, updatedAt := 0 }

/-- C6 witness: a concrete 400 context-length error, with a successful
narrowed re-run, completes the job. -/
theorem contextLength_single_retry_witness :
    handleLLMError c6env 0 c6job (GoError.apiError 400 "context length exceeded") 10 0
      = completeJob c6job "ok" 0
    ∧ handleLLMError c6env 1 c6job (GoError.apiError 400 "context length exceeded") 5 0
      = classifyStandard c6job (ParseSDKError (GoError.apiError 400 "context length exceeded")) 0 := by
  have h := contextLength_single_retry c6env 0 c6job
    (GoError.apiError 400 "context length exceeded") 0 (by decide)
  refine ⟨?_, h.2 (GoError.apiError 400 "context length exceeded") 1⟩
  rw [h.1]
  rfl

/-! ## Knowledge-base ranking (services/context_builder.go,
filterRelevantDocuments) -/

/-- Knowledge-base document. -/
structure Document where
  title : String
  content : String
  kind : String
deriving Repr, DecidableEq

/-- Pricing keyword category. -/
def pricingKeywords : List String :=
  ["harga", "biaya", "price", "cost", "berapa", "paket", "rp", "rupiah", "juta", "ribu"]

/-- WhatsApp keyword category. -/
def whatsappKeywords : List String :=
  ["whatsapp", "wa", "api", "chat", "pesan", "message"]

/-- Website keyword category. -/
def websiteKeywords : List String :=
  ["website", "web", "landing", "page", "situs", "company profile", "ecommerce", "e-commerce"]

/-- SEO keyword category. -/
def seoKeywords : List String :=
  ["seo", "search", "google", "optimization", "ranking"]

/-- App keyword category. -/
def appKeywords : List String :=
  ["aplikasi", "app", "mobile", "android", "ios"]

/-- General keyword category. -/
def generalKeywords : List String :=
  ["layanan", "service", "genfity", "bantuan", "help"]

/-- All keyword categories.  Go iterates its map in unspecified order; the
score is a sum over all category/keyword pairs and therefore independent of
the iteration order, so a fixed order is used here. -/
def keywords : List (String × List String) :=
  [("pricing", pricingKeywords), ("whatsapp", whatsappKeywords),
   ("website", websiteKeywords), ("seo", seoKeywords),
   ("app", appKeywords), ("general", generalKeywords)]

/-- Score of one document against the (already lowercased) query: the body
of the scoring loop of filterRelevantDocuments, including the one-time +15
pricing boost and the +5 pricing floor. -/
def docScore (query : String) (doc : Document) : Nat :=
  let docContent := strToLower (doc.title ++ " " ++ doc.content ++ " " ++ doc.kind)
  let base := (keywords.map (fun kw =>
    (kw.2.map (fun k =>
      if containsSub query k && containsSub docContent k then
        (if kw.1 == "pricing" then 10 else 5)
      else 0)).sum)).sum
  let boosted :=
    if doc.kind == "pricing" || doc.kind == "price" then
      if pricingKeywords.any (fun k => containsSub query k) then base + 15 else base
    else base
  if (doc.kind == "pricing" || doc.kind == "price") && boosted == 0 then
    if pricingKeywords.any (fun k => containsSub query k) then 5 else boosted
  else boosted

/-- One pass of the nested swap loops of filterRelevantDocuments: the first
argument plays the role of the slot being maximised; whenever a later entry
scores strictly higher the current holder is dropped back into that
position, mirroring the swap. -/
def selectPass (f : Document × Nat) : List (Document × Nat) → (Document × Nat) × List (Document × Nat)
  | [] => (f, [])
  | y :: ys =>
    if y.2 > f.2 then
      let r := selectPass y ys
      (r.1, f :: r.2)
    else
      let r := selectPass f ys
      (r.1, y :: r.2)

/-- Exchange sort of the scored documents (the i loop), descending by
score; the fuel argument is instantiated with the list length. -/
def exchangeSortAux : Nat → List (Document × Nat) → List (Document × Nat)
  | 0, l => l
  | _ + 1, [] => []
  | n + 1, x :: xs =>
    let r := selectPass x xs
    r.1 :: exchangeSortAux n r.2

/-- Exchange sort at adequate fuel. -/
def exchangeSort (l : List (Document × Nat)) : List (Document × Nat) :=
  exchangeSortAux l.length l

/-- Mirror of filterRelevantDocuments: lowercase the query, score every
document, sort by score descending with the exchange sort, and return the
documents. -/
def filterRelevantDocuments (docs : List Document) (userQuery : String) : List Document :=
  let query := strToLower userQuery
  let scored := docs.map (fun d => (d, docScore query d))
  (exchangeSort scored).map Prod.fst

theorem selectPass_spec (f : Document × Nat) (l : List (Document × Nat)) :
    (selectPass f l).2.length = l.length
    ∧ ((selectPass f l).1 :: (selectPass f l).2).Perm (f :: l)
    ∧ (∀ x ∈ f :: l, x.2 ≤ (selectPass f l).1.2) := by
  induction l generalizing f with
  | nil =>
    refine ⟨rfl, List.Perm.refl _, ?_⟩
    intro x hx
    rcases List.mem_cons.mp hx with h | h
    · subst h; exact le_refl _
    · exact absurd h (List.not_mem_nil x)
  | cons y ys ih =>
    simp only [selectPass]
    by_cases hgt : y.2 > f.2
    · rw [if_pos hgt]
      dsimp only
      obtain ⟨ihl, ihp, ihm⟩ := ih y
      refine ⟨by simp [ihl], ?_, ?_⟩
      · have hswap : ((selectPass y ys).1 :: f :: (selectPass y ys).2).Perm
            (f :: (selectPass y ys).1 :: (selectPass y ys).2) :=
          List.Perm.swap f (selectPass y ys).1 (selectPass y ys).2
        exact hswap.trans (ihp.cons f)
      · intro x hx
        rcases List.mem_cons.mp hx with h | h
        · subst h
          exact le_trans (le_of_lt hgt) (ihm y (List.mem_cons_self y ys))
        · exact ihm x h
    · rw [if_neg hgt]
      dsimp only
      obtain ⟨ihl, ihp, ihm⟩ := ih f
      refine ⟨by simp [ihl], ?_, ?_⟩
      · have hswap : ((selectPass f ys).1 :: y :: (selectPass f ys).2).Perm
            (y :: (selectPass f ys).1 :: (selectPass f ys).2) :=
          List.Perm.swap y (selectPass f ys).1 (selectPass f ys).2
        have hswap2 : (y :: f :: ys).Perm (f :: y :: ys) :=
          List.Perm.swap f y ys
        exact hswap.trans ((ihp.cons y).trans hswap2)
      · intro x hx
        rcases List.mem_cons.mp hx with h | h
        · subst h
          exact ihm x (List.mem_cons_self x ys)
        · rcases List.mem_cons.mp h with h2 | h2
          · subst h2
            exact le_trans (le_of_not_lt hgt) (ihm f (List.mem_cons_self f ys))
          · exact ihm x (List.mem_cons_of_mem f h2)

theorem exchangeSortAux_spec (n : Nat) :
    ∀ l : List (Document × Nat), l.length ≤ n →
      (exchangeSortAux n l).Perm l
      ∧ (exchangeSortAux n l).Pairwise (fun a b => b.2 ≤ a.2) := by
  induction n with
  | zero =>
    intro l hl
    have : l = [] := List.eq_nil_of_length_eq_zero (Nat.le_zero.mp hl)
    subst this
    exact ⟨List.Perm.refl _, List.Pairwise.nil⟩
  | succ n ih =>
    intro l hl
    cases l with
    | nil => exact ⟨List.Perm.refl _, List.Pairwise.nil⟩
    | cons x xs =>
      obtain ⟨hlen, hperm, hmax⟩ := selectPass_spec x xs
      have hlen2 : (selectPass x xs).2.length ≤ n := by
        rw [hlen]
        exact Nat.le_of_succ_le_succ (by simpa using hl)
      obtain ⟨ihp, ihs⟩ := ih (selectPass x xs).2 hlen2
      constructor
      · show ((selectPass x xs).1 :: exchangeSortAux n (selectPass x xs).2).Perm (x :: xs)
        exact (ihp.cons _).trans hperm
      · show List.Pairwise (fun a b => b.2 ≤ a.2)
          ((selectPass x xs).1 :: exchangeSortAux n (selectPass x xs).2)
        refine List.Pairwise.cons ?_ ihs
        intro b hb
        have hb2 : b ∈ (selectPass x xs).2 := ihp.mem_iff.mp hb
        have hb3 : b ∈ x :: xs := hperm.mem_iff.mp (List.mem_cons_of_mem _ hb2)
        exact hmax b hb3

theorem exchangeSort_spec (l : List (Document × Nat)) :
    (exchangeSort l).Perm l ∧ (exchangeSort l).Pairwise (fun a b => b.2 ≤ a.2) :=
  exchangeSortAux_spec l.length l (le_refl _)

theorem sum_ite_count (c : Nat) (co : String → Bool) (L : List String) :
    (L.map (fun k => if co k then c else 0)).sum = c * (L.filter co).length := by
  induction L with
  | nil => simp
  | cons k ks ih =>
    by_cases h : co k = true
    · simp [List.filter_cons, h, ih, Nat.mul_succ, Nat.add_comm]
    · simp only [Bool.not_eq_true] at h
      simp [List.filter_cons, h, ih]

/-- Scoring rule as the claim words it: +10 per query/document
co-occurrence of a pricing keyword, +5 per co-occurrence of a non-pricing
keyword, a one-time +15 bonus for a pricing-kind document when the query
contains any pricing keyword, and a +5 floor for a pricing-kind document
that otherwise scored zero on a pricing query. -/
def claimedScore (query : String) (doc : Document) : Nat :=
  let docContent := strToLower (doc.title ++ " " ++ doc.content ++ " " ++ doc.kind)
  let co : String → Bool := fun k => containsSub query k && containsSub docContent k
  let qPricing := pricingKeywords.any (fun k => containsSub query k)
  let bonus := if (doc.kind == "pricing" || doc.kind == "price") && qPricing then 15 else 0
  let raw := 10 * (pricingKeywords.filter co).length
    + 5 * (whatsappKeywords.filter co).length
    + 5 * (websiteKeywords.filter co).length
    + 5 * (seoKeywords.filter co).length
    + 5 * (appKeywords.filter co).length
    + 5 * (generalKeywords.filter co).length
    + bonus
  if (doc.kind == "pricing" || doc.kind == "price") && qPricing && raw == 0 then 5 else raw

theorem docScore_eq_claimedScore (query : String) (doc : Document) :
    docScore query doc = claimedScore query doc := by
  unfold docScore claimedScore
  simp only [keywords, List.map_cons, List.map_nil, List.sum_cons, List.sum_nil,
    sum_ite_count,
    show (("pricing" : String) == "pricing") = true from rfl,
    show (("whatsapp" : String) == "pricing") = false from rfl,
    show (("website" : String) == "pricing") = false from rfl,
    show (("seo" : String) == "pricing") = false from rfl,
    show (("app" : String) == "pricing") = false from rfl,
    show (("general" : String) == "pricing") = false from rfl,
    if_true, if_false, Bool.false_eq_true, Nat.add_zero]
  set co : String → Bool :=
    fun k => containsSub query k
      && containsSub (strToLower (doc.title ++ " " ++ doc.content ++ " " ++ doc.kind)) k with hco
  set P := (pricingKeywords.filter co).length with hP
  set W := (whatsappKeywords.filter co).length with hW
  set S := (websiteKeywords.filter co).length with hS
  set E := (seoKeywords.filter co).length with hE
  set A := (appKeywords.filter co).length with hA
  set G := (generalKeywords.filter co).length with hG
  by_cases hk : (doc.kind == "pricing" || doc.kind == "price") = true
  · by_cases hq : (pricingKeywords.any (fun k => containsSub query k)) = true
    · simp only [hk, hq, if_true, Bool.and_self, Bool.true_and, Bool.and_true]
      have hne : 10 * P + (5 * W + (5 * S + (5 * E + (5 * A + 5 * G)))) + 15 ≠ 0 := by omega
      have hne2 : 10 * P + 5 * W + 5 * S + 5 * E + 5 * A + 5 * G + 15 ≠ 0 := by omega
      rw [if_neg (by simpa using hne), if_neg (by simpa using hne2)]
      omega
    · simp only [Bool.not_eq_true] at hq
      simp only [hk, hq, Bool.and_false, Bool.false_and, Bool.and_true, Bool.true_and,
        if_false, Bool.false_eq_true, Nat.add_zero, ite_self]
      omega
  · simp only [Bool.not_eq_true] at hk
    simp only [hk, Bool.false_and, if_false, Bool.false_eq_true, Nat.add_zero]
    omega

/-- Stable descending insertion, as the claim words the sort: a new element
goes after every already-placed element with a greater or equal score. -/
def insertDescBy (x : Document × Nat) : List (Document × Nat) → List (Document × Nat)
  | [] => [x]
  | y :: ys => if x.2 ≤ y.2 then y :: insertDescBy x ys else x :: y :: ys

/-- Stable descending sort built from insertDescBy, processing the input in
order; equal scores keep their prior relative order. -/
def stableSortDesc (l : List (Document × Nat)) : List (Document × Nat) :=
  l.foldl (fun acc x => insertDescBy x acc) []

/-- Ranking as the claim describes it: claimed scoring plus a stable
descending sort. -/
def claimedRanking (docs : List Document) (userQuery : String) : List Document :=
  (stableSortDesc (docs.map (fun d => (d, claimedScore (strToLower userQuery) d)))).map Prod.fst

/-- Documents for the C7 counterexample: two equal-score website documents
followed by a higher-scoring pricing-keyword document. -/
def c7doc1 : Document := { title := "A", content := "web", kind := "faq" }

/-- Second equal-score document. -/
def c7doc2 : Document := { title := "B", content := "web", kind := "faq" }

/-- Higher-scoring document (mentions a pricing keyword). -/
def c7doc3 : Document := { title := "C", content := "harga", kind := "faq" }

/-- C7 counterexample: on query "harga web" the two documents scoring 5
each swap their relative order (the exchange sort is not stable), while the
claimed stable ranking keeps them in input order; the two outputs differ. -/
theorem filterRelevantDocuments_stable_cex :
    docScore (strToLower "harga web") c7doc1 = 5
    ∧ docScore (strToLower "harga web") c7doc2 = 5
    ∧ docScore (strToLower "harga web") c7doc3 = 10
    ∧ filterRelevantDocuments [c7doc1, c7doc2, c7doc3] "harga web" = [c7doc3, c7doc2, c7doc1]
    ∧ claimedRanking [c7doc1, c7doc2, c7doc3] "harga web" = [c7doc3, c7doc1, c7doc2]
    ∧ filterRelevantDocuments [c7doc1, c7doc2, c7doc3] "harga web"
        ≠ claimedRanking [c7doc1, c7doc2, c7doc3] "harga web" := by
  decide

/-- C7 amended: the ranking scores documents exactly as the claim states
(the code score coincides with the claimed formula pointwise), and returns
a permutation of the documents in descending score order; but the sort is
an exchange selection sort that is not stable — documents with equal scores
may not preserve their prior relative order. -/
theorem filterRelevantDocuments_spec (docs : List Document) (userQuery : String) :
    (filterRelevantDocuments docs userQuery).Perm docs
    ∧ (filterRelevantDocuments docs userQuery).Pairwise
        (fun a b => docScore (strToLower userQuery) b ≤ docScore (strToLower userQuery) a)
    ∧ (∀ d, docScore (strToLower userQuery) d = claimedScore (strToLower userQuery) d) := by
  obtain ⟨hperm, hsorted⟩ :=
    exchangeSort_spec (docs.map (fun d => (d, docScore (strToLower userQuery) d)))
  refine ⟨?_, ?_, fun d => docScore_eq_claimedScore _ d⟩
  · have h1 := hperm.map Prod.fst
    have h2 : List.map (Prod.fst ∘ fun d => (d, docScore (strToLower userQuery) d)) docs
        = docs := by
      rw [show (Prod.fst ∘ fun d => (d, docScore (strToLower userQuery) d)) = id from rfl,
        List.map_id]
    rw [List.map_map, h2] at h1
    exact h1
  · show List.Pairwise _ ((exchangeSort _).map Prod.fst)
    rw [List.pairwise_map]
    refine hsorted.imp_of_mem ?_
    intro a b ha hb hab
    have hmem : ∀ x ∈ exchangeSort (docs.map (fun d => (d, docScore (strToLower userQuery) d))),
        x.2 = docScore (strToLower userQuery) x.1 := by
      intro x hx
      have hx2 := hperm.mem_iff.mp hx
      obtain ⟨d, _, hd⟩ := List.mem_map.mp hx2
      rw [← hd]
    rw [← hmem a ha, ← hmem b hb]
    exact hab

/-! ## Intake (handlers HandleAIWebhook, services SaveIncomingMessageToAIChat,
CleanupOldAIChatMessages) -/

/-- Mirror of the AIChatMessage GORM model (ai_chat_messages); message_id
carries a unique index. -/
structure AIChatMessage where
  id : Nat
  messageId : String
  sessionTok : String
  fromJid : String
  toJid : String
  fromMe : Bool
  msgType : String
  body : String
  pushName : String
  isRead : Bool
  timestamp : Int
deriving Repr, DecidableEq

/-- Database state visible to the intake path. -/
structure DBState where
  turns : List AIChatMessage
  jobs : List AIJob
  nextTurnId : Nat
  nextJobId : Nat
deriving Repr, DecidableEq

/-- Ascending insertion by timestamp, used to model the ORDER BY timestamp
ASC of the cleanup query (tie order among equal timestamps is unspecified
in SQL; this model fixes one). -/
def insertAscByTs (x : AIChatMessage) : List AIChatMessage → List AIChatMessage
  | [] => [x]
  | y :: ys => if y.timestamp ≤ x.timestamp then y :: insertAscByTs x ys else x :: y :: ys

/-- Sort by timestamp ascending. -/
def sortAscByTs (l : List AIChatMessage) : List AIChatMessage :=
  l.foldl (fun acc x => insertAscByTs x acc) []

/-- Mirror of CleanupOldAIChatMessages: count the rows of the
session/contact pair, and when above the 20-row cap delete the oldest
surplus rows by id. -/
def CleanupOldAIChatMessages (turns : List AIChatMessage)
    (sessionTok contactPhone : String) : List AIChatMessage :=
  let pred := fun (t : AIChatMessage) =>
    t.sessionTok == sessionTok && (t.fromJid == contactPhone || t.toJid == contactPhone)
  let count := (turns.filter pred).length
  if count ≤ 20 then turns
  else
    let toDelete := count - 20
    let oldIds := ((sortAscByTs (turns.filter pred)).take toDelete).map (fun t => t.id)
    turns.filter (fun t => !(oldIds.contains t.id))

/-- Outcome kinds of the GORM Create call (the handler distinguishes
duplicate-key errors from other failures by message inspection). -/
inductive SaveErr where
  | dupKey
  | generic
deriving Repr, DecidableEq

/-- Session resolution result from the provider facade. -/
structure SessionInfo where
  userId : String
  botActive : Bool
  subscriptionActive : Bool
deriving Repr, DecidableEq

/-- Fallible external effects of one intake run: the session resolution
outcome and whether each datastore write fails. -/
structure IntakeEnv where
  resolve : Option SessionInfo
  insertFails : Bool
  cleanupFails : Bool
  enqueueFails : Bool

/-- Mirror of SaveIncomingMessageToAIChat: insert the inbound turn (the
unique message_id index rejects duplicates; other DB failures are injected
by the environment) and then run the 20-row cleanup, whose error is
returned while the inserted row stays persisted. -/
def SaveIncomingMessageToAIChat (env : IntakeEnv) (st : DBState)
    (sessionTok messageID fromJid toJid body pushName : String) (ts : Int) :
    Option SaveErr × DBState :=
  if st.turns.any (fun t => t.messageId == messageID) then (some SaveErr.dupKey, st)
  else if env.insertFails then (some SaveErr.generic, st)
  else
    let msg : AIChatMessage :=
      { id := st.nextTurnId, messageId := messageID, sessionTok := sessionTok,
        fromJid := fromJid, toJid := toJid, fromMe := false, msgType := "text",
        body := body, pushName := pushName, isRead := false, timestamp := ts }
    let st1 := { st with turns := st.turns ++ [msg], nextTurnId := st.nextTurnId + 1 }
    if env.cleanupFails then (some SaveErr.generic, st1)
    else (none, { st1 with turns := CleanupOldAIChatMessages st1.turns sessionTok fromJid })

/-- Webhook payload fields consumed by the handler. -/
structure WebhookPayload where
  instanceName : String
  eventId : String
  sender : String
  chat : String
  msgType : String
  pushName : String
  timestamp : Int
  isFromMe : Bool
  extendedText : String
  conversation : String
deriving Repr, DecidableEq

/-- Handler responses (one per return site of HandleAIWebhook). -/
inductive WebhookResponse where
  | skippedOwn
  | nonTextIgnored
  | sessionNotFound
  | botInactive
  | subscriptionInactive
  | duplicateMessage
  | failedToSave
  | failedToEnqueue
  | queued (jobId : Nat)
deriving Repr, DecidableEq

/-- HTTP status of each handler response. -/
def httpStatus : WebhookResponse → Nat
  | WebhookResponse.failedToSave => 500
  | WebhookResponse.failedToEnqueue => 500
  | _ => 200

/-- Mirror of HandleAIWebhook: gate checks in source order, idempotent save
of the inbound turn with cleanup, then job enqueue (the job's timestamps
use the payload timestamp as the model's clock). -/
def HandleAIWebhook (env : IntakeEnv) (p : WebhookPayload) (st : DBState) :
    WebhookResponse × DBState :=
  let sessionToken := p.instanceName
  let messageID := p.eventId
  let fromJid := cleanJID p.sender
  let toJid := p.chat
  if p.isFromMe then (WebhookResponse.skippedOwn, st)
  else
    let body := if p.extendedText != "" then p.extendedText else p.conversation
    if p.msgType != "text" || strTrim body == "" then (WebhookResponse.nonTextIgnored, st)
    else
      match env.resolve with
      | none => (WebhookResponse.sessionNotFound, st)
      | some si =>
        if !si.botActive then (WebhookResponse.botInactive, st)
        else if !si.subscriptionActive then (WebhookResponse.subscriptionInactive, st)
        else
          match SaveIncomingMessageToAIChat env st sessionToken messageID fromJid toJid
              body p.pushName p.timestamp with
          | (some SaveErr.dupKey, st1) => (WebhookResponse.duplicateMessage, st1)
          | (some SaveErr.generic, st1) => (WebhookResponse.failedToSave, st1)
          | (none, st1) =>
            if env.enqueueFails then (WebhookResponse.failedToEnqueue, st1)
            else
              let aiJob : AIJob :=
                { id := st1.nextJobId, status := "pending", priority := 5,
                  sessionTok := sessionToken, messageId := messageID, userId := si.userId,
                  inputJSON := body, outputJSON := "", errorMsg := "", attempts := 0,
                  nextRunAt := none, createdAt := p.timestamp, updatedAt := p.timestamp }
              (WebhookResponse.queued st1.nextJobId,
               { st1 with jobs := st1.jobs ++ [aiJob], nextJobId := st1.nextJobId + 1 })

/-- Number of inbound-turn rows stored for a message id. -/
def countTurns (st : DBState) (messageID : String) : Nat :=
  (st.turns.filter (fun t => t.messageId == messageID)).length

/-- Number of job rows referencing a message id. -/
def countJobs (st : DBState) (messageID : String) : Nat :=
  (st.jobs.filter (fun j => j.messageId == messageID)).length

theorem save_duplicate (env : IntakeEnv) (st : DBState)
    (sessionTok messageID fromJid toJid body pushName : String) (ts : Int)
    (hdup : st.turns.any (fun t => t.messageId == messageID) = true) :
    SaveIncomingMessageToAIChat env st sessionTok messageID fromJid toJid body pushName ts
      = (some SaveErr.dupKey, st) := by
  unfold SaveIncomingMessageToAIChat
  rw [if_pos hdup]

/-- A replay of a payload whose message id is already stored returns the
duplicate response with the state untouched, whenever the gates pass. -/
theorem handle_duplicate (env : IntakeEnv) (p : WebhookPayload) (st : DBState)
    (si : SessionInfo)
    (hdup : st.turns.any (fun t => t.messageId == p.eventId) = true)
    (hown : p.isFromMe = false)
    (htype : p.msgType = "text")
    (hbody : strTrim (if p.extendedText != "" then p.extendedText else p.conversation) ≠ "")
    (hres : env.resolve = some si)
    (hbot : si.botActive = true)
    (hsub : si.subscriptionActive = true) :
    HandleAIWebhook env p st = (WebhookResponse.duplicateMessage, st) := by
  have hbne : (p.msgType != "text") = false := by rw [htype]; rfl
  have hbodyb : (strTrim (if p.extendedText != "" then p.extendedText else p.conversation)
      == "") = false := beq_eq_false_iff_ne.mpr hbody
  have hsave := save_duplicate env st p.instanceName p.eventId (cleanJID p.sender) p.chat
    (if p.extendedText != "" then p.extendedText else p.conversation) p.pushName p.timestamp hdup
  unfold HandleAIWebhook
  rw [hown, if_neg (by simp), hbne]
  dsimp only
  rw [hbodyb, if_neg (by simp), hres]
  dsimp only
  rw [hbot, hsub, if_neg (by simp), if_neg (by simp), hsave]

/-- Regardless of gate outcomes and environment, the handler never changes
the state on a payload whose message id is already stored. -/
theorem handle_duplicate_state (env : IntakeEnv) (p : WebhookPayload) (st : DBState)
    (hdup : st.turns.any (fun t => t.messageId == p.eventId) = true) :
    (HandleAIWebhook env p st).2 = st := by
  unfold HandleAIWebhook
  dsimp only
  generalize (if p.extendedText != "" then p.extendedText else p.conversation) = body
  split
  · rfl
  · split
    · rfl
    · cases hres : env.resolve with
      | none => rfl
      | some si =>
        dsimp only
        split
        · rfl
        · split
          · rfl
          · rw [save_duplicate env st p.instanceName p.eventId (cleanJID p.sender) p.chat
              body p.pushName p.timestamp hdup]

/-! ## Claim C8: idempotent intake -/

/-- C8: replaying a webhook whose message_id is already stored leaves the
database unchanged any number of times: the duplicate insert conflicts on
the unique message_id, the handler responds 200 with the duplicate status,
the single InboundTurn row stays single, and no additional Job row is
created. -/
theorem idempotent_intake (env : IntakeEnv) (p : WebhookPayload) (st : DBState)
    (si : SessionInfo)
    (hdup : st.turns.any (fun t => t.messageId == p.eventId) = true)
    (hown : p.isFromMe = false)
    (htype : p.msgType = "text")
    (hbody : strTrim (if p.extendedText != "" then p.extendedText else p.conversation) ≠ "")
    (hres : env.resolve = some si)
    (hbot : si.botActive = true)
    (hsub : si.subscriptionActive = true) :
    HandleAIWebhook env p st = (WebhookResponse.duplicateMessage, st)
    ∧ httpStatus (HandleAIWebhook env p st).1 = 200
    ∧ (∀ n, (fun s => (HandleAIWebhook env p s).2)^[n] st = st)
    ∧ (countTurns st p.eventId = 1 →
        ∀ n, countTurns ((fun s => (HandleAIWebhook env p s).2)^[n] st) p.eventId = 1)
    ∧ (∀ n, ((fun s => (HandleAIWebhook env p s).2)^[n] st).jobs = st.jobs) := by
  have hmain := handle_duplicate env p st si hdup hown htype hbody hres hbot hsub
  have hiter : ∀ n, (fun s => (HandleAIWebhook env p s).2)^[n] st = st := by
    intro n
    induction n with
    | zero => rfl
    | succ k ihk =>
      rw [Function.iterate_succ_apply]
      have hf : (HandleAIWebhook env p st).2 = st := by rw [hmain]
      rw [hf, ihk]
  refine ⟨hmain, by rw [hmain]; rfl, hiter, ?_, ?_⟩
  · intro h1 n
    rw [hiter n]
    exact h1
  · intro n
    rw [hiter n]

/-- Session used by the C8 witness. -/
def c8si : SessionInfo := ⟨"u1", true, true⟩

/-- Environment used by the C8 witness: session resolves, no DB failures. -/
def c8env : IntakeEnv := ⟨some c8si, false, false, false⟩

/-- Replayed payload for the C8 witness. -/
def c8p : WebhookPayload :=
  { instanceName := "sess", eventId := "m1", sender := "628:24@s.whatsapp.net",
    chat := "bot@s.whatsapp.net", msgType := "text", pushName := "N",
    timestamp := 10, isFromMe := false, extendedText := "", conversation := "halo" }

/-- Stored inbound turn of the original delivery, for the C8 witness. -/
def c8turn : AIChatMessage :=
  { id := 1, messageId := "m1", sessionTok := "sess", fromJid := "628@s.whatsapp.net",
    toJid := "bot@s.whatsapp.net", fromMe := false, msgType := "text", body := "halo",
    pushName := "N", isRead := false, timestamp := 10 }

/-- Database state after the original delivery, for the C8 witness. -/
def c8st : DBState := { turns := [c8turn], jobs := [], nextTurnId := 2, nextJobId := 1 }

/-- C8 witness: three replays of the stored webhook leave one turn row. -/
theorem idempotent_intake_witness :
    HandleAIWebhook c8env c8p c8st = (WebhookResponse.duplicateMessage, c8st)
    ∧ countTurns ((fun s => (HandleAIWebhook c8env c8p s).2)^[3] c8st) "m1" = 1 :=
  have h := idempotent_intake c8env c8p c8st c8si (by decide) rfl rfl (by decide) rfl rfl rfl
  ⟨h.1, h.2.2.2.1 (by decide) 3⟩

/-! ## Claim C10: non-atomic intake on cleanup failure -/

/-- Turn row inserted by the save step of the handler. -/
def insertedTurn (p : WebhookPayload) (st : DBState) : AIChatMessage :=
  { id := st.nextTurnId, messageId := p.eventId, sessionTok := p.instanceName,
    fromJid := cleanJID p.sender, toJid := p.chat, fromMe := false, msgType := "text",
    body := (if p.extendedText != "" then p.extendedText else p.conversation),
    pushName := p.pushName, isRead := false, timestamp := p.timestamp }

/-- Database state right after the insert, before the cleanup runs. -/
def stateAfterInsert (p : WebhookPayload) (st : DBState) : DBState :=
  { st with turns := st.turns ++ [insertedTurn p st], nextTurnId := st.nextTurnId + 1 }

/-- C10: for a new message, when the insert succeeds and the 20-row prune
fails, the handler responds 500 and enqueues no Job while the inserted
InboundTurn row stays persisted; every later replay of the same webhook
leaves the state unchanged (dropped as a duplicate when the gates pass), so
no Job is ever created for that message. -/
theorem intake_not_atomic (env : IntakeEnv) (p : WebhookPayload) (st : DBState)
    (si : SessionInfo)
    (hnew : st.turns.any (fun t => t.messageId == p.eventId) = false)
    (hown : p.isFromMe = false)
    (htype : p.msgType = "text")
    (hbody : strTrim (if p.extendedText != "" then p.extendedText else p.conversation) ≠ "")
    (hres : env.resolve = some si)
    (hbot : si.botActive = true)
    (hsub : si.subscriptionActive = true)
    (hins : env.insertFails = false)
    (hclean : env.cleanupFails = true) :
    HandleAIWebhook env p st = (WebhookResponse.failedToSave, stateAfterInsert p st)
    ∧ httpStatus (HandleAIWebhook env p st).1 = 500
    ∧ (HandleAIWebhook env p st).2.jobs = st.jobs
    ∧ (HandleAIWebhook env p st).2.turns = st.turns ++ [insertedTurn p st]
    ∧ ((HandleAIWebhook env p st).2.turns.any (fun t => t.messageId == p.eventId)) = true
    ∧ (∀ env2 st2, st2.turns.any (fun t => t.messageId == p.eventId) = true →
        (HandleAIWebhook env2 p st2).2 = st2)
    ∧ (∀ env2 si2 (st2 : DBState), st2.turns.any (fun t => t.messageId == p.eventId) = true →
        env2.resolve = some si2 → si2.botActive = true → si2.subscriptionActive = true →
        HandleAIWebhook env2 p st2 = (WebhookResponse.duplicateMessage, st2)) := by
  have hbne : (p.msgType != "text") = false := by rw [htype]; rfl
  have hbodyb : (strTrim (if p.extendedText != "" then p.extendedText else p.conversation)
      == "") = false := beq_eq_false_iff_ne.mpr hbody
  have hsave : SaveIncomingMessageToAIChat env st p.instanceName p.eventId (cleanJID p.sender)
      p.chat (if p.extendedText != "" then p.extendedText else p.conversation)
      p.pushName p.timestamp = (some SaveErr.generic, stateAfterInsert p st) := by
    unfold SaveIncomingMessageToAIChat
    rw [if_neg (by simp [hnew]), hins, if_neg (by simp)]
    dsimp only
    rw [hclean, if_pos rfl]
    rfl
  have hmain : HandleAIWebhook env p st = (WebhookResponse.failedToSave, stateAfterInsert p st) := by
    unfold HandleAIWebhook
    rw [hown, if_neg (by simp), hbne]
    dsimp only
    rw [hbodyb, if_neg (by simp), hres]
    dsimp only
    rw [hbot, hsub, if_neg (by simp), if_neg (by simp), hsave]
  have hany : ((stateAfterInsert p st).turns.any (fun t => t.messageId == p.eventId)) = true := by
    unfold stateAfterInsert insertedTurn
    simp [List.any_append]
  refine ⟨hmain, by rw [hmain]; rfl, by rw [hmain]; rfl, by rw [hmain]; rfl,
    by rw [hmain]; exact hany, ?_, ?_⟩
  · intro env2 st2 hdup2
    exact handle_duplicate_state env2 p st2 hdup2
  · intro env2 si2 st2 hdup2 hres2 hbot2 hsub2
    exact handle_duplicate env2 p st2 si2 hdup2 hown htype hbody hres2 hbot2 hsub2

/-- Session used by the C10 witness. -/
def c10si : SessionInfo := ⟨"u2", true, true⟩

/-- Environment for the C10 witness: insert succeeds, cleanup fails. -/
def c10env : IntakeEnv := ⟨some c10si, false, true, false⟩

/-- Healthy replay environment for the C10 witness. -/
def c10env2 : IntakeEnv := ⟨some c10si, false, false, false⟩

/-- New-message payload for the C10 witness. -/
def c10p : WebhookPayload :=
  { instanceName := "sess2", eventId := "m9", sender := "629:7@s.whatsapp.net",
    chat := "bot@s.whatsapp.net", msgType := "text", pushName := "M",
    timestamp := 20, isFromMe := false, extendedText := "", conversation := "hi" }

/-- Empty initial state for the C10 witness. -/
def c10st : DBState := { turns := [], jobs := [], nextTurnId := 1, nextJobId := 1 }

/-- C10 witness: the failed-cleanup run responds 500 with the row
persisted, and a healthy replay on the resulting state is dropped as a
duplicate with no job created. -/
theorem intake_not_atomic_witness :
    HandleAIWebhook c10env c10p c10st
      = (WebhookResponse.failedToSave, stateAfterInsert c10p c10st)
    ∧ (HandleAIWebhook c10env c10p c10st).2.jobs = []
    ∧ HandleAIWebhook c10env2 c10p (stateAfterInsert c10p c10st)
      = (WebhookResponse.duplicateMessage, stateAfterInsert c10p c10st) :=
  have h := intake_not_atomic c10env c10p c10st c10si rfl rfl rfl (by decide) rfl rfl rfl rfl rfl
  ⟨h.1, by rw [h.1]; rfl, h.2.2.2.2.2.2 c10env2 c10si (stateAfterInsert c10p c10st)
      (by decide) rfl rfl rfl⟩

end Clivy
